import Mathlib

/-!
Shallow embedding of the market-data normalization and technical-indicator
engine of the `real-time-stock-mcp-service` repository.

Numeric model: Python floats are modelled as rationals (ℚ); `round(x, 2)`
is modelled as round-half-to-even at two decimal places; `None` is
modelled as `Option.none`; a raised exception is modelled as
`Except.error`.

Sources embedded here:
- `src/mcp_tools/kline_data.py`: `parse_kline_data`, `calculate_ma`,
  `calculate_ema`, `calculate_macd`, `calculate_rsi`, `calculate_kdj`;
- `src/stock_data_source.py`: `WebCrawlerDataSource.get_historical_k_data`
  (the empty-check plus record-parsing part; the network fetch is an
  external collaborator) and `get_technical_indicators` (the indicator
  assembly over parsed bars; same formulas as the module-level copies);
- `src/crawler/base_crawler.py`: `EastMoneyBaseSpider.format_secid`;
- `src/crawler/real_time_data.py`: `RealTimeDataSpider._add_exchange_prefix`.
-/

/-- Python `str.strip()`: drop whitespace from both ends. -/
def pyStrip (s : List Char) : List Char :=
  ((s.dropWhile Char.isWhitespace).reverse.dropWhile Char.isWhitespace).reverse

/-- Python `str.isdigit()` on ASCII input: nonempty and all digits. -/
def pyIsDigit (s : List Char) : Bool :=
  !s.isEmpty && s.all Char.isDigit

/-- Python `str.split(",")`: split on every comma; empty input yields one
empty field, like `"".split(",") == [""]`. -/
def splitOnComma : List Char → List (List Char)
  | [] => [[]]
  | c :: rest =>
    if c = ',' then [] :: splitOnComma rest
    else
      match splitOnComma rest with
      | [] => [[c]]
      | f :: fs => (c :: f) :: fs

/-- Value of a digit string read in base 10. -/
def digitsVal (s : List Char) : ℕ :=
  s.foldl (fun acc c => acc * 10 + (c.toNat - 48)) 0

/-- Python `float(s)` restricted to the sign/decimal grammar of the
upstream feed's numeric fields (`[+-]?digits[.digits]?` or `[+-]?.digits`);
any other input fails, as Python raises `ValueError`. -/
def pyFloat (s : List Char) : Option ℚ :=
  let sgn : ℚ := match s with
    | '-' :: _ => -1
    | _ => 1
  let t : List Char := match s with
    | '-' :: r => r
    | '+' :: r => r
    | r => r
  let ip := t.takeWhile Char.isDigit
  match t.dropWhile Char.isDigit with
  | [] => if ip.isEmpty then none else some (sgn * (digitsVal ip : ℚ))
  | '.' :: fp =>
    if fp.all Char.isDigit && !(ip.isEmpty && fp.isEmpty) then
      some (sgn * ((digitsVal ip : ℚ) + (digitsVal fp : ℚ) / (10 : ℚ) ^ fp.length))
    else none
  | _ => none

/-- Python `int(s)`: an optionally signed digit string; anything else
raises `ValueError`. -/
def pyInt (s : List Char) : Option ℤ :=
  match s with
  | '-' :: r => if pyIsDigit r then some (-(digitsVal r : ℤ)) else none
  | '+' :: r => if pyIsDigit r then some (digitsVal r : ℤ) else none
  | r => if pyIsDigit r then some (digitsVal r : ℤ) else none

/-- Round-half-to-even to an integer, the tie-breaking rule of Python's
built-in `round`. -/
def roundHalfEven (x : ℚ) : ℤ :=
  let f := ⌊x⌋
  let r := x - f
  if r < 1 / 2 then f
  else if 1 / 2 < r then f + 1
  else if f % 2 = 0 then f else f + 1

/-- Python `round(x, 2)`. -/
def round2 (x : ℚ) : ℚ :=
  (roundHalfEven (x * 100) : ℚ) / 100

/-- One parsed K-line bar, the dict built by `parse_kline_data`
(`src/mcp_tools/kline_data.py`, lines 30-42). -/
structure Bar where
  date : String
  «open» : ℚ
  close : ℚ
  high : ℚ
  low : ℚ
  volume : ℤ
  amount : ℚ
  amplitude : ℚ
  change_percent : ℚ
  change_amount : ℚ
  turnover_rate : ℚ
deriving Inhabited, DecidableEq

/-- Build the bar dict from a split record of at least 11 fields:
`date=fields[0]`, `open=float(fields[1])`, `close=float(fields[2])`,
`high=float(fields[3])`, `low=float(fields[4])`, `volume=int(fields[5])`,
`amount=float(fields[6])`, `amplitude=float(fields[7])`,
`change_percent=float(fields[8])`, `change_amount=float(fields[9])`,
`turnover_rate=float(fields[10])`. A failed numeric conversion is the
Python `ValueError` escaping the loop, modelled as `Except.error` carrying
the offending field. -/
def parseBar (fields : List (List Char)) : Except String Bar :=
  match pyFloat (fields.getD 1 []), pyFloat (fields.getD 2 []),
        pyFloat (fields.getD 3 []), pyFloat (fields.getD 4 []),
        pyInt (fields.getD 5 []), pyFloat (fields.getD 6 []),
        pyFloat (fields.getD 7 []), pyFloat (fields.getD 8 []),
        pyFloat (fields.getD 9 []), pyFloat (fields.getD 10 []) with
  | some o, some c, some h, some l, some v, some am,
    some amp, some cp, some ca, some tr =>
    .ok { date := ⟨fields.getD 0 []⟩, «open» := o, close := c, high := h,
          low := l, volume := v, amount := am, amplitude := amp,
          change_percent := cp, change_amount := ca, turnover_rate := tr }
  | _, _, _, _, _, _, _, _, _, _ => .error ⟨(fields.getD 0 [])⟩

/-- `parse_kline_data` (`src/mcp_tools/kline_data.py`, lines 16-43): split
each record on commas; a record with at least 11 fields is converted to a
`Bar`, a shorter record is passed over by the `if len(fields) >= 11`
guard; a numeric conversion failure aborts the whole call. -/
def parse_kline_data (klines : List String) : Except String (List Bar) :=
  match klines with
  | [] => .ok []
  | kline :: rest =>
    let fields := splitOnComma kline.data
    if 11 ≤ fields.length then do
      let b ← parseBar fields
      let bs ← parse_kline_data rest
      pure (b :: bs)
    else
      parse_kline_data rest

/-- `WebCrawlerDataSource.get_historical_k_data`
(`src/stock_data_source.py`, lines 104-147), from the point where the
spider has returned the raw `klines`: an empty list raises
`NoDataFoundError`; otherwise the records are parsed by the same loop as
`parse_kline_data`, in input order, with no sorting. -/
def get_historical_k_data (klines : List String) : Except String (List Bar) :=
  if klines.isEmpty then .error (⟨['N','o','D','a','t','a','F','o','u','n','d','E','r','r','o','r']⟩ : String)
  else parse_kline_data klines

/-- Lexicographic string order by code point, Python's `str` comparison
(the source compares date strings this way, e.g.
`item['date'] >= start_date` in `src/mcp_tools/kline_data.py`). -/
def pyStrLe : List Char → List Char → Bool
  | [], _ => true
  | _ :: _, [] => false
  | a :: as, b :: bs =>
    if a.toNat < b.toNat then true
    else if b.toNat < a.toNat then false
    else pyStrLe as bs

/-- Whether a date column is sorted ascending under Python string order. -/
def datesSortedAsc : List String → Bool
  | [] => true
  | [_] => true
  | a :: b :: rest => pyStrLe a.data b.data && datesSortedAsc (b :: rest)

/-- `calculate_ma` (`src/mcp_tools/kline_data.py`, lines 46-55): `None`
for `i < period - 1`, else the rounded mean of the trailing window
`data[i-period+1 : i+1]`. -/
def calculate_ma (data : List ℚ) (period : ℕ) : List (Option ℚ) :=
  (List.range data.length).map (fun i =>
    if i < period - 1 then none
    else some (round2 (((data.drop (i + 1 - period)).take period).sum / (period : ℚ))))

/-- Main loop of `calculate_ema` (lines 76-81): the running `ema` variable
persists across `None` inputs; a defined input updates it by
`ema = (data[i] - ema) * multiplier + ema` and emits it, an undefined
input emits `None`. -/
def emaLoop (multiplier : ℚ) : ℚ → List (Option ℚ) → List (Option ℚ)
  | _, [] => []
  | ema, none :: rest => none :: emaLoop multiplier ema rest
  | ema, some v :: rest =>
    let ema2 := (v - ema) * multiplier + ema
    some ema2 :: emaLoop multiplier ema2 rest

/-- Seed search of `calculate_ema` after the first element has been seen
(lines 63-74): further `None` inputs emit `None`; the first defined value
becomes the seed EMA and is emitted as-is. On exhaustion nothing more is
emitted. -/
def emaGo (multiplier : ℚ) : List (Option ℚ) → List (Option ℚ)
  | [] => []
  | none :: rest => none :: emaGo multiplier rest
  | some v :: rest => some v :: emaLoop multiplier v rest

/-- `calculate_ema` (`src/mcp_tools/kline_data.py`, lines 58-83, identical
to `WebCrawlerDataSource._calculate_ema`): find the first defined input as
the seed, emit `None` before it, the seed itself, then run the recurrence.
On empty input the unconditional `result.append(ema)` still runs, so the
result is `[None]`. -/
def calculate_ema (data : List (Option ℚ)) (period : ℕ) : List (Option ℚ) :=
  let multiplier : ℚ := 2 / ((period : ℚ) + 1)
  match data with
  | [] => [none]
  | none :: rest => none :: emaGo multiplier rest
  | some v :: rest => some v :: emaLoop multiplier v rest

/-- Result dict of `calculate_macd`. -/
structure MacdResult where
  DIF : List (Option ℚ)
  DEA : List (Option ℚ)
  MACD : List (Option ℚ)
deriving Inhabited

/-- `calculate_macd` (`src/mcp_tools/kline_data.py`, lines 86-116,
identical to `WebCrawlerDataSource._calculate_macd`): empty closes give
empty columns; otherwise `DIF = EMA(fast) - EMA(slow)` pointwise where
both are defined, `DEA = EMA(DIF, dea_period)`, histogram
`MACD = 2*(DIF-DEA)` rounded from the unrounded inputs, and `DIF`/`DEA`
rounded afterwards. -/
def calculate_macd (closes : List ℚ) (fast slow dea_period : ℕ) : MacdResult :=
  if closes.length = 0 then ⟨[], [], []⟩
  else
    let ema_fast := calculate_ema (closes.map some) fast
    let ema_slow := calculate_ema (closes.map some) slow
    let dif := (List.range closes.length).map (fun i =>
      match ema_fast.getD i none, ema_slow.getD i none with
      | some a, some b => some (a - b)
      | _, _ => none)
    let dea := calculate_ema dif dea_period
    let macd_bar := (List.range closes.length).map (fun i =>
      match dif.getD i none, dea.getD i none with
      | some a, some b => some (round2 (2 * (a - b)))
      | _, _ => none)
    ⟨dif.map (Option.map round2), dea.map (Option.map round2), macd_bar⟩

/-- Per-index close-to-close changes: `changes[i] = closes[i] - closes[i-1]`
for `i ≥ 1` (`calculate_rsi`, lines 133-135); index 0 is prepended as 0 by
`gainsOf`/`lossesOf`. -/
def changesOf (closes : List ℚ) : List ℚ :=
  (closes.tail.zip closes).map (fun p => p.1 - p.2)

/-- Gains column of `calculate_rsi` (lines 129-141): `gains[0] = 0`, and
`gains[i] = change if change > 0 else 0`. -/
def gainsOf (closes : List ℚ) : List ℚ :=
  0 :: (changesOf closes).map (fun c => if 0 < c then c else 0)

/-- Losses column of `calculate_rsi` (lines 129-141): `losses[0] = 0`, and
`losses[i] = 0 if change > 0 else -change`. -/
def lossesOf (closes : List ℚ) : List ℚ :=
  0 :: (changesOf closes).map (fun c => if 0 < c then 0 else -c)

/-- Wilder recurrence step `avg = (avg * (period - 1) + x) / period`
(`calculate_rsi`, lines 164-165). -/
def wilderStep (period : ℕ) (avg x : ℚ) : ℚ :=
  (avg * ((period : ℚ) - 1) + x) / (period : ℚ)

/-- Tail loop of `calculate_rsi` (lines 163-172) over the
`(gain, loss)` pairs from index `period + 1` on, carrying the running
Wilder averages: `100.0` exactly when the average loss is zero, otherwise
the rounded `100 - 100/(1+rs)`. -/
def rsiLoop (period : ℕ) (avg_gain avg_loss : ℚ) :
    List (ℚ × ℚ) → List (Option ℚ)
  | [] => []
  | gl :: rest =>
    let ag := wilderStep period avg_gain gl.1
    let al := wilderStep period avg_loss gl.2
    (if al = 0 then some 100
     else some (round2 (100 - 100 / (1 + ag / al)))) :: rsiLoop period ag al rest

/-- Body of `calculate_rsi` for one period (lines 143-174): all-`None`
when the period is non-positive or the series is not longer than the
period; else `None` for the first `period` indices, a first value at index
`period` from the simple averages of `gains[1..period]`/`losses[1..period]`,
then the Wilder-smoothed tail. -/
def rsiColumn (closes : List ℚ) (period : ℕ) : List (Option ℚ) :=
  let n := closes.length
  if period = 0 ∨ n ≤ period then List.replicate n none
  else
    let gains := gainsOf closes
    let losses := lossesOf closes
    let avg_gain := ((gains.drop 1).take period).sum / (period : ℚ)
    let avg_loss := ((losses.drop 1).take period).sum / (period : ℚ)
    List.replicate period none
      ++ (if avg_loss = 0 then some 100
          else some (round2 (100 - 100 / (1 + avg_gain / avg_loss))))
      :: rsiLoop period avg_gain avg_loss
          ((gains.drop (period + 1)).zip (losses.drop (period + 1)))

/-- Result dict of `calculate_rsi` for the default periods `[6, 12, 24]`. -/
structure RsiResult where
  rsi6 : List (Option ℚ)
  rsi12 : List (Option ℚ)
  rsi24 : List (Option ℚ)
deriving Inhabited

/-- `calculate_rsi` (`src/mcp_tools/kline_data.py`, lines 119-176,
identical to `WebCrawlerDataSource._calculate_rsi`): the dict
`{f"rsi{p}": column(p)}` over the default periods `[6, 12, 24]`. -/
def calculate_rsi (closes : List ℚ) : RsiResult :=
  ⟨rsiColumn closes 6, rsiColumn closes 12, rsiColumn closes 24⟩

/-- Maximum of a list of rationals under `max`, seeded at the head
(Python `max(slice)`; the engine only applies it to nonempty windows). -/
def listMax : List ℚ → ℚ
  | [] => 0
  | x :: xs => xs.foldl max x

/-- Minimum of a list of rationals under `min`, seeded at the head
(Python `min(slice)`). -/
def listMin : List ℚ → ℚ
  | [] => 0
  | x :: xs => xs.foldl min x

/-- Trailing window maximum `max(highs[i-period+1 : i+1])` of
`calculate_kdj` (line 188). -/
def windowHigh (highs : List ℚ) (period i : ℕ) : ℚ :=
  listMax ((highs.drop (i + 1 - period)).take period)

/-- Trailing window minimum `min(lows[i-period+1 : i+1])` of
`calculate_kdj` (line 189). -/
def windowLow (lows : List ℚ) (period i : ℕ) : ℚ :=
  listMin ((lows.drop (i + 1 - period)).take period)

/-- RSV column of `calculate_kdj` (lines 182-196): `None` for
`i < period - 1`; else `50` when the window high equals the window low,
and the normalized close position otherwise. -/
def rsvList (highs lows closes : List ℚ) (period : ℕ) : List (Option ℚ) :=
  (List.range closes.length).map (fun i =>
    if i < period - 1 then none
    else
      let ph := windowHigh highs period i
      let pl := windowLow lows period i
      if ph = pl then some 50
      else some ((closes.getD i 0 - pl) / (ph - pl) * 100))

/-- Shared smoothing loop of `calculate_kdj` for the K values
(lines 198-205) and the D values (lines 207-214): the running value
starts at 50, persists across `None`, and each defined input `x` updates
it to `(prev * (smooth - 1) + x) / smooth`, emitting the rounded value
while carrying the unrounded one. -/
def kdjSmooth (smooth : ℕ) : ℚ → List (Option ℚ) → List (Option ℚ)
  | _, [] => []
  | prev, none :: rest => none :: kdjSmooth smooth prev rest
  | prev, some x :: rest =>
    let cur := (prev * ((smooth : ℚ) - 1) + x) / (smooth : ℚ)
    some (round2 cur) :: kdjSmooth smooth cur rest

/-- Result dict of `calculate_kdj`. -/
structure KdjResult where
  k : List (Option ℚ)
  d : List (Option ℚ)
  j : List (Option ℚ)
deriving Inhabited

/-- `calculate_kdj` (`src/mcp_tools/kline_data.py`, lines 179-224,
identical to `WebCrawlerDataSource._calculate_kdj`): RSV, K smoothing of
RSV, D smoothing of the rounded K values, and `J = 3K - 2D` where both
are defined. -/
def calculate_kdj (highs lows closes : List ℚ)
    (period k_period d_period : ℕ) : KdjResult :=
  let rsv_list := rsvList highs lows closes period
  let k_values := kdjSmooth k_period 50 rsv_list
  let d_values := kdjSmooth d_period 50 k_values
  let j_values := (List.range k_values.length).map (fun i =>
    match k_values.getD i none, d_values.getD i none with
    | some kv, some dv => some (round2 (3 * kv - 2 * dv))
    | _, _ => none)
  ⟨k_values, d_values, j_values⟩

/-- One row of the technical-indicator output of
`WebCrawlerDataSource.get_technical_indicators`
(`src/stock_data_source.py`, lines 246-262). -/
structure IndicatorPoint where
  date : String
  ma5 : Option ℚ
  ma10 : Option ℚ
  ma20 : Option ℚ
  ma60 : Option ℚ
  macd_dif : Option ℚ
  macd_dea : Option ℚ
  macd_bar : Option ℚ
  rsi6 : Option ℚ
  rsi12 : Option ℚ
  rsi24 : Option ℚ
  kdj_k : Option ℚ
  kdj_d : Option ℚ
  kdj_j : Option ℚ
deriving Inhabited

/-- Indicator assembly of `WebCrawlerDataSource.get_technical_indicators`
(`src/stock_data_source.py`, lines 191-269), after the bars have been
fetched and parsed: compute every column over the close/high/low series
and pair row `i` with the date of bar `i`. -/
def get_technical_indicators (k_data : List Bar) : List IndicatorPoint :=
  let closes := k_data.map Bar.close
  let highs := k_data.map Bar.high
  let lows := k_data.map Bar.low
  let ma5 := calculate_ma closes 5
  let ma10 := calculate_ma closes 10
  let ma20 := calculate_ma closes 20
  let ma60 := calculate_ma closes 60
  let macd_data := calculate_macd closes 12 26 9
  let rsi_data := calculate_rsi closes
  let kdj_data := calculate_kdj highs lows closes 9 3 3
  (List.range k_data.length).map (fun i =>
    { date := (k_data.getD i default).date
      ma5 := ma5.getD i none
      ma10 := ma10.getD i none
      ma20 := ma20.getD i none
      ma60 := ma60.getD i none
      macd_dif := macd_data.DIF.getD i none
      macd_dea := macd_data.DEA.getD i none
      macd_bar := macd_data.MACD.getD i none
      rsi6 := rsi_data.rsi6.getD i none
      rsi12 := rsi_data.rsi12.getD i none
      rsi24 := rsi_data.rsi24.getD i none
      kdj_k := kdj_data.k.getD i none
      kdj_d := kdj_data.d.getD i none
      kdj_j := kdj_data.j.getD i none })

/-- `EastMoneyBaseSpider.format_secid` (`src/crawler/base_crawler.py`,
lines 102-137): strip and uppercase; a `left.right` input with
`left ∈ {"0","1"}` and all-digit `right` is already a secid and is
reconstructed as-is; a `code.SZ`/`code.SH` input maps `SZ→0`, `SH→1`;
an all-digit input gets market `1` when it starts with `6`, else `0`;
anything else raises `ValueError` (modelled as `Except.error` carrying
the input). -/
def format_secid (stock_code : String) : Except String String :=
  let code := (pyStrip stock_code.data).map Char.toUpper
  let left := code.takeWhile (· ≠ '.')
  let right := (code.dropWhile (· ≠ '.')).drop 1
  if code.contains '.' ∧ (left = ['0'] ∨ left = ['1']) ∧ pyIsDigit right then
    .ok ⟨left ++ '.' :: right⟩
  else if code.contains '.' ∧ (right = ['S', 'Z'] ∨ right = ['S', 'H']) then
    .ok ⟨(if right = ['S', 'Z'] then '0' else '1') :: '.' :: left⟩
  else if pyIsDigit code then
    .ok ⟨(if code.headD ' ' = '6' then '1' else '0') :: '.' :: code⟩
  else .error stock_code

/-- Whether a string has the canonical secid shape `0.digits` or
`1.digits` that `format_secid` recognizes verbatim. -/
def isCanonSecid (s : String) : Bool :=
  match s.data with
  | m :: '.' :: rest => (m = '0' || m = '1') && pyIsDigit rest
  | _ => false

/-- `RealTimeDataSpider._add_exchange_prefix`
(`src/crawler/real_time_data.py`, lines 28-51): inputs already starting
with `SH`/`SZ` pass through; an all-digit input of length 5 passes
through (Hong Kong); a digit input starting with `6` gets `SH`, one
starting with `0`/`3` gets `SZ`; everything else passes through. -/
def _add_exchange_prefix (symbol : String) : String :=
  let s := symbol.data
  if s.take 2 = ['S', 'H'] ∨ s.take 2 = ['S', 'Z'] then symbol
  else if pyIsDigit s then
    if s.length = 5 then symbol
    else if s.headD ' ' = '6' then ⟨'S' :: 'H' :: s⟩
    else if s.headD ' ' = '0' ∨ s.headD ' ' = '3' then ⟨'S' :: 'Z' :: s⟩
    else symbol
  else symbol

/-- The running Wilder average loss of `calculate_rsi` at index
`period + k`: the simple mean of `losses[1..period]` (the `avg_loss` first
computed at index `period`), advanced by `k` recurrence steps over
`losses[period+1 .. period+k]`. This is exactly the value the `avg_loss`
variable holds when `rsi_values[period + k]` is assigned. -/
def wilderAvgLossAfter (closes : List ℚ) (period k : ℕ) : ℚ :=
  ((((lossesOf closes).drop (period + 1)).take k).foldl (wilderStep period)
    ((((lossesOf closes).drop 1).take period).sum / (period : ℚ)))

/-! ## Length and indexing lemmas for the indicator engine -/

theorem emaLoop_length (m : ℚ) (e : ℚ) (l : List (Option ℚ)) :
    (emaLoop m e l).length = l.length := by
  induction l generalizing e with
  | nil => rfl
  | cons x rest ih =>
    cases x <;> simp [emaLoop, ih]

theorem emaGo_length (m : ℚ) (l : List (Option ℚ)) :
    (emaGo m l).length = l.length := by
  induction l with
  | nil => rfl
  | cons x rest ih =>
    cases x <;> simp [emaGo, ih, emaLoop_length]

theorem calculate_ema_length (data : List (Option ℚ)) (p : ℕ) (h : data ≠ []) :
    (calculate_ema data p).length = data.length := by
  match data with
  | [] => exact absurd rfl h
  | none :: rest => simp [calculate_ema, emaGo_length]
  | some v :: rest => simp [calculate_ema, emaLoop_length]

theorem calculate_ema_nil (p : ℕ) : calculate_ema [] p = [none] := rfl

theorem calculate_ma_length (data : List ℚ) (p : ℕ) :
    (calculate_ma data p).length = data.length := by
  simp [calculate_ma]

theorem macd_DIF_length (closes : List ℚ) (f s dp : ℕ) :
    (calculate_macd closes f s dp).DIF.length = closes.length := by
  unfold calculate_macd
  split
  · simp_all
  · simp

theorem macd_DEA_length (closes : List ℚ) (f s dp : ℕ) :
    (calculate_macd closes f s dp).DEA.length = closes.length := by
  unfold calculate_macd
  split
  · simp_all
  · rename_i h
    dsimp only
    rw [List.length_map, calculate_ema_length]
    · simp
    · simp only [ne_eq, List.map_eq_nil_iff, List.range_eq_nil]
      omega

theorem macd_MACD_length (closes : List ℚ) (f s dp : ℕ) :
    (calculate_macd closes f s dp).MACD.length = closes.length := by
  unfold calculate_macd
  split
  · simp_all
  · simp

theorem rsiLoop_length (p : ℕ) (ag al : ℚ) (l : List (ℚ × ℚ)) :
    (rsiLoop p ag al l).length = l.length := by
  induction l generalizing ag al with
  | nil => rfl
  | cons x rest ih => simp [rsiLoop, ih]

theorem gainsOf_length (closes : List ℚ) (h : closes ≠ []) :
    (gainsOf closes).length = closes.length := by
  match closes with
  | c :: rest => simp [gainsOf, changesOf]

theorem lossesOf_length (closes : List ℚ) (h : closes ≠ []) :
    (lossesOf closes).length = closes.length := by
  match closes with
  | c :: rest => simp [lossesOf, changesOf]

theorem rsiColumn_length (closes : List ℚ) (p : ℕ) :
    (rsiColumn closes p).length = closes.length := by
  unfold rsiColumn
  dsimp only
  split
  · simp
  · rename_i h
    push_neg at h
    have hnil : closes ≠ [] := by
      intro hc; subst hc; simp at h
    simp [rsiLoop_length, gainsOf_length closes hnil, lossesOf_length closes hnil]
    omega

theorem rsvList_length (highs lows closes : List ℚ) (p : ℕ) :
    (rsvList highs lows closes p).length = closes.length := by
  simp [rsvList]

theorem kdjSmooth_length (sm : ℕ) (prev : ℚ) (l : List (Option ℚ)) :
    (kdjSmooth sm prev l).length = l.length := by
  induction l generalizing prev with
  | nil => rfl
  | cons x rest ih => cases x <;> simp [kdjSmooth, ih]

theorem kdj_k_length (highs lows closes : List ℚ) (pd kp dp : ℕ) :
    (calculate_kdj highs lows closes pd kp dp).k.length = closes.length := by
  simp [calculate_kdj, kdjSmooth_length, rsvList_length]

theorem kdj_d_length (highs lows closes : List ℚ) (pd kp dp : ℕ) :
    (calculate_kdj highs lows closes pd kp dp).d.length = closes.length := by
  simp [calculate_kdj, kdjSmooth_length, rsvList_length]

theorem kdj_j_length (highs lows closes : List ℚ) (pd kp dp : ℕ) :
    (calculate_kdj highs lows closes pd kp dp).j.length = closes.length := by
  simp [calculate_kdj, kdjSmooth_length, rsvList_length]

theorem get_technical_indicators_length (k_data : List Bar) :
    (get_technical_indicators k_data).length = k_data.length := by
  simp [get_technical_indicators]

theorem get_technical_indicators_date (k_data : List Bar) (i : ℕ)
    (hi : i < k_data.length) :
    ((get_technical_indicators k_data).getD i default).date
      = (k_data.getD i default).date := by
  simp [get_technical_indicators, List.getD_eq_getElem?_getD,
    List.getElem?_map, List.getElem?_range, hi]

/-! ## Claim theorems -/

/-- Claim C1: for every non-empty list of parsed bars, each indicator
column (MA5/10/20/60, MACD DIF/DEA/histogram, RSI6/12/24, KDJ K/D/J) has
exactly the same length as the input bar list, and the i-th indicator
point carries the date of the i-th input bar. -/
theorem c1_indicator_lengths_and_dates (bars : List Bar) (h : bars ≠ []) :
    (calculate_ma (bars.map Bar.close) 5).length = bars.length ∧
    (calculate_ma (bars.map Bar.close) 10).length = bars.length ∧
    (calculate_ma (bars.map Bar.close) 20).length = bars.length ∧
    (calculate_ma (bars.map Bar.close) 60).length = bars.length ∧
    (calculate_macd (bars.map Bar.close) 12 26 9).DIF.length = bars.length ∧
    (calculate_macd (bars.map Bar.close) 12 26 9).DEA.length = bars.length ∧
    (calculate_macd (bars.map Bar.close) 12 26 9).MACD.length = bars.length ∧
    (calculate_rsi (bars.map Bar.close)).rsi6.length = bars.length ∧
    (calculate_rsi (bars.map Bar.close)).rsi12.length = bars.length ∧
    (calculate_rsi (bars.map Bar.close)).rsi24.length = bars.length ∧
    (calculate_kdj (bars.map Bar.high) (bars.map Bar.low)
        (bars.map Bar.close) 9 3 3).k.length = bars.length ∧
    (calculate_kdj (bars.map Bar.high) (bars.map Bar.low)
        (bars.map Bar.close) 9 3 3).d.length = bars.length ∧
    (calculate_kdj (bars.map Bar.high) (bars.map Bar.low)
        (bars.map Bar.close) 9 3 3).j.length = bars.length ∧
    (get_technical_indicators bars).length = bars.length ∧
    ∀ i, i < bars.length →
      ((get_technical_indicators bars).getD i default).date
        = (bars.getD i default).date := by
  refine ⟨?_, ?_, ?_, ?_, ?_, ?_, ?_, ?_, ?_, ?_, ?_, ?_, ?_, ?_, ?_⟩
  · rw [calculate_ma_length, List.length_map]
  · rw [calculate_ma_length, List.length_map]
  · rw [calculate_ma_length, List.length_map]
  · rw [calculate_ma_length, List.length_map]
  · rw [macd_DIF_length, List.length_map]
  · rw [macd_DEA_length, List.length_map]
  · rw [macd_MACD_length, List.length_map]
  · rw [calculate_rsi, rsiColumn_length, List.length_map]
  · rw [calculate_rsi, rsiColumn_length, List.length_map]
  · rw [calculate_rsi, rsiColumn_length, List.length_map]
  · rw [kdj_k_length, List.length_map]
  · rw [kdj_d_length, List.length_map]
  · rw [kdj_j_length, List.length_map]
  · exact get_technical_indicators_length bars
  · exact fun i hi => get_technical_indicators_date bars i hi

/-- Witness for C1 at a concrete two-bar series. -/
theorem c1_indicator_lengths_and_dates_witness :
    ([⟨"2024-01-02", 1, 2, 3, 1, 5, 6, 7, 8, 9, 10⟩,
      ⟨"2024-01-03", 1, 2, 3, 1, 5, 6, 7, 8, 9, 10⟩] : List Bar) ≠ [] ∧
    (get_technical_indicators
      [⟨"2024-01-02", 1, 2, 3, 1, 5, 6, 7, 8, 9, 10⟩,
       ⟨"2024-01-03", 1, 2, 3, 1, 5, 6, 7, 8, 9, 10⟩]).length = 2 := by
  refine ⟨by simp, ?_⟩
  have h := c1_indicator_lengths_and_dates
    [⟨"2024-01-02", 1, 2, 3, 1, 5, 6, 7, 8, 9, 10⟩,
     ⟨"2024-01-03", 1, 2, 3, 1, 5, 6, 7, 8, 9, 10⟩] (by simp)
  exact h.2.2.2.2.2.2.2.2.2.2.2.2.2.1

/-- Claim C10: `calculate_ema` returns a list of the input's length for
every non-empty input, but on the empty input it returns `[None]` (length
one, not zero); `calculate_macd` never observes this because its columns
are empty whenever the close list is empty, and always have the input's
length. -/
theorem c10_ema_empty_list (data : List (Option ℚ)) (p : ℕ)
    (closes : List ℚ) (h : data ≠ []) :
    (calculate_ema data p).length = data.length ∧
    calculate_ema [] p = [none] ∧
    calculate_macd [] 12 26 9 = ⟨[], [], []⟩ ∧
    (calculate_macd closes 12 26 9).DIF.length = closes.length ∧
    (calculate_macd closes 12 26 9).DEA.length = closes.length ∧
    (calculate_macd closes 12 26 9).MACD.length = closes.length := by
  exact ⟨calculate_ema_length data p h, rfl, rfl,
    macd_DIF_length closes 12 26 9, macd_DEA_length closes 12 26 9,
    macd_MACD_length closes 12 26 9⟩

/-- Witness for C10 at a concrete one-element input. -/
theorem c10_ema_empty_list_witness :
    ([some (1 : ℚ)] : List (Option ℚ)) ≠ [] ∧
    (calculate_ema [some (1 : ℚ)] 12).length = 1 ∧
    calculate_ema [] 12 = [none] := by
  have h := c10_ema_empty_list [some (1 : ℚ)] 12 [] (by simp)
  exact ⟨by simp, h.1, h.2.1⟩

/-! ## Parser lemmas -/

theorem parseBar_date (fields : List (List Char)) (b : Bar)
    (h : parseBar fields = Except.ok b) :
    b.date = String.mk (fields.getD 0 []) := by
  unfold parseBar at h
  split at h
  · cases h
    rfl
  · cases h

theorem parse_kline_data_dates (klines : List String) (bars : List Bar)
    (h : parse_kline_data klines = Except.ok bars) :
    bars.map Bar.date
      = (klines.filter (fun k => 11 ≤ (splitOnComma k.data).length)).map
          (fun k => String.mk ((splitOnComma k.data).getD 0 [])) := by
  induction klines generalizing bars with
  | nil =>
    cases h
    rfl
  | cons kline rest ih =>
    rw [parse_kline_data] at h
    by_cases hlen : 11 ≤ (splitOnComma kline.data).length
    · rw [if_pos hlen] at h
      cases hb : parseBar (splitOnComma kline.data) with
      | error e => rw [hb] at h; cases h
      | ok b =>
        rw [hb] at h
        cases hr : parse_kline_data rest with
        | error e => rw [hr] at h; cases h
        | ok bs =>
          rw [hr] at h
          cases h
          rw [List.filter_cons_of_pos (by simpa using hlen)]
          simp only [List.map_cons]
          rw [parseBar_date _ _ hb, ih bs hr]
    · rw [if_neg hlen] at h
      rw [List.filter_cons_of_neg (by simpa using hlen)]
      exact ih bars h

/-! ## Claim C2 -/

/-- Claim C2 fails on the code: for the record
`2024-01-02,10.50,10.20,10.60,10.10,100000,1050000.00,4.76,2.94,0.30,1.20`
the parser maps position 1 to `open` and position 2 to `close`, so the
parsed bar has `open = 10.50` and `close = 10.20`, while the claim asserts
`close = 10.50` and `open = 10.20`. -/
theorem c2_counterexample :
    (parse_kline_data
        ["2024-01-02,10.50,10.20,10.60,10.10,100000,1050000.00,4.76,2.94,0.30,1.20"]).map
      (fun bs => bs.map (fun b => (b.«open», b.close)))
      = Except.ok [((10.50 : ℚ), (10.20 : ℚ))] ∧ (10.50 : ℚ) ≠ (10.20 : ℚ) := by
  constructor
  · have hd : ("2024-01-02,10.50,10.20,10.60,10.10,100000,1050000.00,4.76,2.94,0.30,1.20" : String).data
        = ['2','0','2','4','-','0','1','-','0','2',',','1','0','.','5','0',',','1','0','.','2','0',',','1','0','.','6','0',',','1','0','.','1','0',',','1','0','0','0','0','0',',','1','0','5','0','0','0','0','.','0','0',',','4','.','7','6',',','2','.','9','4',',','0','.','3','0',',','1','.','2','0'] := by decide
    simp [parse_kline_data, hd, splitOnComma, parseBar, pyFloat, pyInt, pyIsDigit,
      digitsVal, Except.map, Except.bind, Except.pure, bind, pure]
    norm_num
  · norm_num

/-- Claim C2 as amended: position 1 of a record is `open` and position 2
is `close`; on the end-to-end record the parsed bar is
`date=2024-01-02, open=10.50, close=10.20, high=10.60, low=10.10,
volume=100000, amount=1050000.00, amplitude=4.76, change_percent=2.94,
change_amount=0.30, turnover_rate=1.20`. -/
theorem c2_amended_field_order :
    parse_kline_data
        ["2024-01-02,10.50,10.20,10.60,10.10,100000,1050000.00,4.76,2.94,0.30,1.20"]
      = Except.ok [Bar.mk "2024-01-02" 10.50 10.20 10.60 10.10 100000 1050000.00
          4.76 2.94 0.30 1.20] := by
  have hd : ("2024-01-02,10.50,10.20,10.60,10.10,100000,1050000.00,4.76,2.94,0.30,1.20" : String).data
      = ['2','0','2','4','-','0','1','-','0','2',',','1','0','.','5','0',',','1','0','.','2','0',',','1','0','.','6','0',',','1','0','.','1','0',',','1','0','0','0','0','0',',','1','0','5','0','0','0','0','.','0','0',',','4','.','7','6',',','2','.','9','4',',','0','.','3','0',',','1','.','2','0'] := by decide
  simp [parse_kline_data, hd, splitOnComma, parseBar, pyFloat, pyInt, pyIsDigit,
    digitsVal, Except.map, Except.bind, Except.pure, bind, pure, Bar.mk.injEq]
  norm_num

/-! ## Claim C3 -/

/-- Claim C3 fails on the code: for the close series `[10, ..., 20]` of
length 11 with `fast=12, slow=26, dea_period=9`, the DIF value at index 0
is defined (the EMA seeds at the first close, so there is no warm-up
region), while the claim asserts every index is undefined. -/
theorem c3_counterexample :
    (calculate_macd [10, 11, 12, 13, 14, 15, 16, 17, 18, 19, 20] 12 26 9).DIF.getD 0 none
      ≠ none := by
  simp [calculate_macd, calculate_ema, emaLoop, List.range_succ]

/-- Claim C3 as amended: for the close series `[10, ..., 20]` with
`fast=12, slow=26, dea_period=9`, the DIF, DEA and MACD-histogram columns
all have length 11 and are defined at every index: `calculate_ema` seeds
from the first value, so the slow EMA, the DIF and the DEA have no
undefined warm-up region at all. -/
theorem c3_amended_all_defined :
    (calculate_macd [10, 11, 12, 13, 14, 15, 16, 17, 18, 19, 20] 12 26 9).DIF.length = 11 ∧
    (calculate_macd [10, 11, 12, 13, 14, 15, 16, 17, 18, 19, 20] 12 26 9).DEA.length = 11 ∧
    (calculate_macd [10, 11, 12, 13, 14, 15, 16, 17, 18, 19, 20] 12 26 9).MACD.length = 11 ∧
    (calculate_macd [10, 11, 12, 13, 14, 15, 16, 17, 18, 19, 20] 12 26 9).DIF.all Option.isSome = true ∧
    (calculate_macd [10, 11, 12, 13, 14, 15, 16, 17, 18, 19, 20] 12 26 9).DEA.all Option.isSome = true ∧
    (calculate_macd [10, 11, 12, 13, 14, 15, 16, 17, 18, 19, 20] 12 26 9).MACD.all Option.isSome = true := by
  refine ⟨?_, ?_, ?_, ?_, ?_, ?_⟩ <;>
    simp [calculate_macd, calculate_ema, emaLoop, List.range_succ]

/-! ## Claim C5 -/

/-- Claim C5 fails on the code: a 9-field record does not raise any error;
`parse_kline_data` silently drops it and returns the empty bar list. -/
theorem c5_counterexample :
    (parse_kline_data
        ["2024-01-02,10.50,10.20,10.60,10.10,100000,1050000.00,4.76,2.94"]).toOption
      = some ([] : List Bar) := by decide

/-- Claim C5 as amended: a record with fewer than 11 comma-separated
fields is silently skipped — parsing continues with the remaining records
and no error is raised for the short record. -/
theorem c5_amended_skip_short (kline : String) (rest : List String)
    (h : (splitOnComma kline.data).length < 11) :
    parse_kline_data (kline :: rest) = parse_kline_data rest := by
  rw [parse_kline_data, if_neg (by omega)]

/-- Witness for the amended C5 at the 9-field record. -/
theorem c5_amended_skip_short_witness :
    (splitOnComma ("2024-01-02,10.50,10.20,10.60,10.10,100000,1050000.00,4.76,2.94" : String).data).length < 11 ∧
    parse_kline_data ["2024-01-02,10.50,10.20,10.60,10.10,100000,1050000.00,4.76,2.94"]
      = parse_kline_data [] :=
  ⟨by decide,
   c5_amended_skip_short "2024-01-02,10.50,10.20,10.60,10.10,100000,1050000.00,4.76,2.94" [] (by decide)⟩

/-! ## Claim C6 -/

/-- Claim C6 fails on the code: two well-formed records supplied in
descending date order come back in that same order — the assembler does
not sort by date. -/
theorem c6_counterexample :
    ((get_historical_k_data
        ["2024-01-03,1,1,1,1,1,1,1,1,1,1", "2024-01-02,1,1,1,1,1,1,1,1,1,1"]).map
      (fun bs => datesSortedAsc (bs.map Bar.date))).toOption = some false := by decide

/-- Claim C6 as amended: the assembler parses the records with at least
11 fields and returns their bars in input order (their date column is the
first field of each well-formed record, in order, with no sorting), and
an empty record list raises `NoDataFoundError` (the spec's empty-series
error) before any indicator is computed. -/
theorem c6_amended_input_order (klines : List String) (bars : List Bar)
    (h : get_historical_k_data klines = Except.ok bars) :
    bars.map Bar.date
      = (klines.filter (fun k => 11 ≤ (splitOnComma k.data).length)).map
          (fun k => String.mk ((splitOnComma k.data).getD 0 [])) ∧
    get_historical_k_data [] = Except.error "NoDataFoundError" := by
  constructor
  · unfold get_historical_k_data at h
    split at h
    · cases h
    · exact parse_kline_data_dates klines bars h
  · rfl

/-- Witness for the amended C6 at a concrete record list (two short
records, both skipped). -/
theorem c6_amended_input_order_witness :
    get_historical_k_data ["2024-01-03", "2024-01-02"] = Except.ok [] ∧
    ([] : List Bar).map Bar.date
      = ((["2024-01-03", "2024-01-02"] : List String).filter
          (fun k => 11 ≤ (splitOnComma k.data).length)).map
          (fun k => String.mk ((splitOnComma k.data).getD 0 [])) :=
  ⟨by rfl,
   (c6_amended_input_order ["2024-01-03", "2024-01-02"] [] (by rfl)).1⟩

/-! ## Claim C7 -/

theorem rsiLoop_getD_of_avgLoss_zero (p : ℕ) (gls : List (ℚ × ℚ)) :
    ∀ (ag al : ℚ) (k : ℕ), k < gls.length →
      ((gls.take (k + 1)).map Prod.snd).foldl (wilderStep p) al = 0 →
      (rsiLoop p ag al gls).getD k none = some 100 := by
  induction gls with
  | nil => intro ag al k hk _; simp at hk
  | cons gl rest ih =>
    intro ag al k hk hfold
    cases k with
    | zero =>
      simp only [List.take_succ_cons, List.take_zero, List.map_cons,
        List.map_nil, List.foldl_cons, List.foldl_nil] at hfold
      simp [rsiLoop, hfold]
    | succ k' =>
      have step : (rsiLoop p ag al (gl :: rest)).getD (k' + 1)
          = (rsiLoop p (wilderStep p ag gl.1) (wilderStep p al gl.2) rest).getD k' := rfl
      rw [step]
      apply ih
      · simpa using hk
      · simpa only [List.take_succ_cons, List.map_cons, List.foldl_cons] using hfold

theorem rsiColumn_getD_of_avgLoss_zero (closes : List ℚ) (p k : ℕ)
    (hp : 0 < p) (hkn : p + k < closes.length)
    (hal : wilderAvgLossAfter closes p k = 0) :
    (rsiColumn closes p).getD (p + k) none = some 100 := by
  have hnil : closes ≠ [] := by intro hc; subst hc; simp at hkn
  unfold rsiColumn
  dsimp only
  rw [if_neg (by push_neg; exact ⟨by omega, by omega⟩)]
  rw [List.getD_append_right _ _ _ _ (by simpa using Nat.le_add_right p k)]
  simp only [List.length_replicate]
  have hpk : p + k - p = k := by omega
  rw [hpk]
  cases k with
  | zero =>
    rw [List.getD_cons_zero]
    have h0 : ((((lossesOf closes).drop 1).take p).sum / (p : ℚ)) = 0 := by
      simpa [wilderAvgLossAfter] using hal
    rw [if_pos h0]
  | succ k' =>
    rw [List.getD_cons_succ]
    apply rsiLoop_getD_of_avgLoss_zero
    · rw [List.length_zip, List.length_drop, List.length_drop,
        gainsOf_length closes hnil, lossesOf_length closes hnil]
      omega
    · rw [List.map_take, List.map_snd_zip]
      · simpa [wilderAvgLossAfter] using hal
      · rw [List.length_drop, List.length_drop, gainsOf_length closes hnil,
          lossesOf_length closes hnil]

theorem rsvList_getD_flat (highs lows closes : List ℚ) (period i : ℕ)
    (hi1 : period - 1 ≤ i) (hi2 : i < closes.length)
    (hw : windowHigh highs period i = windowLow lows period i) :
    (rsvList highs lows closes period).getD i none = some 50 := by
  unfold rsvList
  rw [List.getD_eq_getElem?_getD, List.getElem?_map, List.getElem?_range hi2]
  simp only [Option.map_some', Option.getD_some]
  rw [if_neg (by omega)]
  rw [if_pos hw]

/-- Claim C7: on numerically degenerate input the engine resolves rather
than raises: whenever the running Wilder average loss at index `p + k` is
zero, the RSI value there is exactly `some 100` (set directly, with no
rounding applied), and whenever the trailing `period`-window high equals
the window low at an in-range index, the RSV there is exactly `some 50`
(so neither RSI's nor KDJ's division is ever taken with a zero
denominator; the Lean embedding is a total function, so no exception can
arise at all). -/
theorem c7_degenerate_input_resolved (closes highs lows : List ℚ)
    (p k period i : ℕ)
    (hp : 0 < p) (hkn : p + k < closes.length)
    (hal : wilderAvgLossAfter closes p k = 0)
    (hper : 0 < period)
    (hh : highs.length = closes.length) (hl : lows.length = closes.length)
    (hi1 : period - 1 ≤ i) (hi2 : i < closes.length)
    (hw : windowHigh highs period i = windowLow lows period i) :
    (rsiColumn closes p).getD (p + k) none = some 100 ∧
    (rsvList highs lows closes period).getD i none = some 50 :=
  ⟨rsiColumn_getD_of_avgLoss_zero closes p k hp hkn hal,
   rsvList_getD_flat highs lows closes period i hi1 hi2 hw⟩

/-- Witness for C7 on a flat 10-bar series (all prices 10): RSI6 at index
6 is exactly 100 and RSV(9) at index 8 is exactly 50. -/
theorem c7_degenerate_input_resolved_witness :
    (0 < 6 ∧ 6 + 0 < ([10, 10, 10, 10, 10, 10, 10, 10, 10, 10] : List ℚ).length ∧
     wilderAvgLossAfter [10, 10, 10, 10, 10, 10, 10, 10, 10, 10] 6 0 = 0 ∧
     windowHigh [10, 10, 10, 10, 10, 10, 10, 10, 10, 10] 9 8
       = windowLow [10, 10, 10, 10, 10, 10, 10, 10, 10, 10] 9 8) ∧
    (rsiColumn [10, 10, 10, 10, 10, 10, 10, 10, 10, 10] 6).getD (6 + 0) none = some 100 ∧
    (rsvList [10, 10, 10, 10, 10, 10, 10, 10, 10, 10]
      [10, 10, 10, 10, 10, 10, 10, 10, 10, 10]
      [10, 10, 10, 10, 10, 10, 10, 10, 10, 10] 9).getD 8 none = some 50 := by
  have hal : wilderAvgLossAfter ([10, 10, 10, 10, 10, 10, 10, 10, 10, 10] : List ℚ) 6 0 = 0 := by
    simp [wilderAvgLossAfter, lossesOf, changesOf]
  have hw : windowHigh ([10, 10, 10, 10, 10, 10, 10, 10, 10, 10] : List ℚ) 9 8
      = windowLow [10, 10, 10, 10, 10, 10, 10, 10, 10, 10] 9 8 := by
    simp [windowHigh, windowLow, listMax, listMin]
  have main := c7_degenerate_input_resolved
    [10, 10, 10, 10, 10, 10, 10, 10, 10, 10]
    [10, 10, 10, 10, 10, 10, 10, 10, 10, 10]
    [10, 10, 10, 10, 10, 10, 10, 10, 10, 10]
    6 0 9 8 (by decide) (by simp) hal (by decide) (by simp) (by simp)
    (by decide) (by simp) hw
  exact ⟨⟨by decide, by simp, hal, hw⟩, main.1, main.2⟩

/-! ## Claim C4 -/

theorem emaLoop_cons_none (m e : ℚ) (rest : List (Option ℚ)) :
    emaLoop m e (none :: rest) = none :: emaLoop m e rest := rfl

theorem emaLoop_cons_some (m e v : ℚ) (rest : List (Option ℚ)) :
    emaLoop m e (some v :: rest)
      = some ((v - e) * m + e) :: emaLoop m ((v - e) * m + e) rest := rfl

theorem emaLoop_getD_none (m : ℚ) (rest : List (Option ℚ)) :
    ∀ (e : ℚ) (i : ℕ), rest.getD i none = none →
      (emaLoop m e rest).getD i none = none := by
  induction rest with
  | nil => intro e i _; simp [emaLoop]
  | cons a rest ih =>
    intro e i hi
    cases a with
    | none =>
      cases i with
      | zero => rw [emaLoop_cons_none, List.getD_cons_zero]
      | succ i' =>
        rw [List.getD_cons_succ] at hi
        rw [emaLoop_cons_none, List.getD_cons_succ]
        exact ih e i' hi
    | some v =>
      cases i with
      | zero => rw [List.getD_cons_zero] at hi; cases hi
      | succ i' =>
        rw [List.getD_cons_succ] at hi
        rw [emaLoop_cons_some, List.getD_cons_succ]
        exact ih ((v - e) * m + e) i' hi

theorem emaLoop_getD_some (m : ℚ) (rest : List (Option ℚ)) :
    ∀ (e : ℚ) (i : ℕ) (x : ℚ), rest.getD i none = some x →
      ((∀ j, j < i → (emaLoop m e rest).getD j none = none) ∧
        (emaLoop m e rest).getD i none = some ((x - e) * m + e)) ∨
      (∃ j w, j < i ∧ (emaLoop m e rest).getD j none = some w ∧
        (∀ q, j < q → q < i → (emaLoop m e rest).getD q none = none) ∧
        (emaLoop m e rest).getD i none = some ((x - w) * m + w)) := by
  induction rest with
  | nil => intro e i x hi; simp at hi
  | cons a rest ih =>
    intro e i x hi
    cases a with
    | none =>
      cases i with
      | zero => rw [List.getD_cons_zero] at hi; cases hi
      | succ i' =>
        rw [List.getD_cons_succ] at hi
        rcases ih e i' x hi with ⟨hnone, hval⟩ | ⟨j, w, hj, hw, hmid, hval⟩
        · left
          constructor
          · intro j hj
            cases j with
            | zero => rw [emaLoop_cons_none, List.getD_cons_zero]
            | succ j' =>
              rw [emaLoop_cons_none, List.getD_cons_succ]
              exact hnone j' (by omega)
          · rw [emaLoop_cons_none, List.getD_cons_succ]
            exact hval
        · right
          refine ⟨j + 1, w, by omega, ?_, ?_, ?_⟩
          · rw [emaLoop_cons_none, List.getD_cons_succ]
            exact hw
          · intro q hq1 hq2
            cases q with
            | zero => omega
            | succ q' =>
              rw [emaLoop_cons_none, List.getD_cons_succ]
              exact hmid q' (by omega) (by omega)
          · rw [emaLoop_cons_none, List.getD_cons_succ]
            exact hval
    | some v =>
      cases i with
      | zero =>
        rw [List.getD_cons_zero] at hi
        cases hi
        left
        exact ⟨fun j hj => by omega, by rw [emaLoop_cons_some, List.getD_cons_zero]⟩
      | succ i' =>
        rw [List.getD_cons_succ] at hi
        rcases ih ((v - e) * m + e) i' x hi with ⟨hnone, hval⟩ | ⟨j, w, hj, hw, hmid, hval⟩
        · right
          refine ⟨0, (v - e) * m + e, by omega, ?_, ?_, ?_⟩
          · rw [emaLoop_cons_some, List.getD_cons_zero]
          · intro q hq1 hq2
            cases q with
            | zero => omega
            | succ q' =>
              rw [emaLoop_cons_some, List.getD_cons_succ]
              exact hnone q' (by omega)
          · rw [emaLoop_cons_some, List.getD_cons_succ]
            exact hval
        · right
          refine ⟨j + 1, w, by omega, ?_, ?_, ?_⟩
          · rw [emaLoop_cons_some, List.getD_cons_succ]
            exact hw
          · intro q hq1 hq2
            cases q with
            | zero => omega
            | succ q' =>
              rw [emaLoop_cons_some, List.getD_cons_succ]
              exact hmid q' (by omega) (by omega)
          · rw [emaLoop_cons_some, List.getD_cons_succ]
            exact hval

theorem emaGo_structure (m : ℚ) :
    ∀ (d : List (Option ℚ)) (s : ℕ) (v : ℚ),
      (∀ j, j < s → d.getD j none = none) → d.getD s none = some v →
      emaGo m d = List.replicate s none ++ some v :: emaLoop m v (d.drop (s + 1)) := by
  intro d
  induction d with
  | nil => intro s v _ hs; simp at hs
  | cons a rest ih =>
    intro s v hfirst hs
    cases s with
    | zero =>
      rw [List.getD_cons_zero] at hs
      subst hs
      rfl
    | succ s' =>
      have ha : a = none := by
        have := hfirst 0 (by omega)
        rwa [List.getD_cons_zero] at this
      subst ha
      rw [List.getD_cons_succ] at hs
      have hrest : ∀ j, j < s' → rest.getD j none = none := by
        intro j hj
        have := hfirst (j + 1) (by omega)
        rwa [List.getD_cons_succ] at this
      show none :: emaGo m rest = _
      rw [ih s' v hrest hs]
      rfl

theorem calculate_ema_structure (data : List (Option ℚ)) (p : ℕ) (s : ℕ) (v : ℚ)
    (hfirst : ∀ j, j < s → data.getD j none = none)
    (hs : data.getD s none = some v) :
    calculate_ema data p
      = List.replicate s none
          ++ some v :: emaLoop (2 / ((p : ℚ) + 1)) v (data.drop (s + 1)) := by
  cases data with
  | nil => simp at hs
  | cons a rest =>
    cases s with
    | zero =>
      rw [List.getD_cons_zero] at hs
      subst hs
      rfl
    | succ s' =>
      have ha : a = none := by
        have := hfirst 0 (by omega)
        rwa [List.getD_cons_zero] at this
      subst ha
      rw [List.getD_cons_succ] at hs
      have hrest : ∀ j, j < s' → rest.getD j none = none := by
        intro j hj
        have := hfirst (j + 1) (by omega)
        rwa [List.getD_cons_succ] at this
      show none :: emaGo (2 / ((p : ℚ) + 1)) rest = _
      rw [emaGo_structure (2 / ((p : ℚ) + 1)) rest s' v hrest hs]
      rfl

/-- Claim C4: for every input column and period, the EMA seeds at the
first defined input value (index `s`): every index before `s` is
undefined, index `s` carries the input value itself, every index with an
undefined input is undefined, and every later defined index `i`
satisfies `ema[i] = (x[i] - ema_prev) * (2/(p+1)) + ema_prev`, where
`ema_prev` is the most recent defined EMA value before `i`. -/
theorem c4_ema_seed_and_recurrence (data : List (Option ℚ)) (p : ℕ) (s : ℕ) (v : ℚ)
    (hfirst : ∀ j, j < s → data.getD j none = none)
    (hs : data.getD s none = some v) :
    (calculate_ema data p).getD s none = some v ∧
    (∀ j, j < s → (calculate_ema data p).getD j none = none) ∧
    (∀ i, i < data.length → data.getD i none = none →
      (calculate_ema data p).getD i none = none) ∧
    (∀ i x, s < i → data.getD i none = some x →
      ∃ j w, j < i ∧ (calculate_ema data p).getD j none = some w ∧
        (∀ q, j < q → q < i → (calculate_ema data p).getD q none = none) ∧
        (calculate_ema data p).getD i none
          = some ((x - w) * (2 / ((p : ℚ) + 1)) + w)) := by
  have hE := calculate_ema_structure data p s v hfirst hs
  have hA : ∀ t, (calculate_ema data p).getD (s + 1 + t) none
      = (emaLoop (2 / ((p : ℚ) + 1)) v (data.drop (s + 1))).getD t none := by
    intro t
    rw [hE, List.getD_append_right _ _ _ _ (by simp only [List.length_replicate]; omega)]
    simp only [List.length_replicate]
    have ht : s + 1 + t - s = t + 1 := by omega
    rw [ht, List.getD_cons_succ]
  have hB : (calculate_ema data p).getD s none = some v := by
    rw [hE, List.getD_append_right _ _ _ _ (by simp)]
    simp only [List.length_replicate, Nat.sub_self, List.getD_cons_zero]
  have hC : ∀ j, j < s → (calculate_ema data p).getD j none = none := by
    intro j hj
    rw [hE, List.getD_append _ _ _ _ (by simpa using hj)]
    rw [List.getD_eq_getElem?_getD, List.getElem?_replicate_of_lt hj]
    rfl
  have hD : ∀ t, data.getD (s + 1 + t) none = (data.drop (s + 1)).getD t none := by
    intro t
    rw [List.getD_eq_getElem?_getD, List.getD_eq_getElem?_getD, List.getElem?_drop]
  refine ⟨hB, hC, ?_, ?_⟩
  · intro i hilen hnone
    rcases Nat.lt_trichotomy i s with hlt | heq | hgt
    · exact hC i hlt
    · subst heq; rw [hs] at hnone; cases hnone
    · obtain ⟨t, rfl⟩ : ∃ t, i = s + 1 + t := ⟨i - s - 1, by omega⟩
      rw [hA t]
      apply emaLoop_getD_none
      rw [← hD t]
      exact hnone
  · intro i x hgt hx
    obtain ⟨t, rfl⟩ : ∃ t, i = s + 1 + t := ⟨i - s - 1, by omega⟩
    have hx' : (data.drop (s + 1)).getD t none = some x := by
      rw [← hD t]; exact hx
    rcases emaLoop_getD_some (2 / ((p : ℚ) + 1)) (data.drop (s + 1)) v t x hx'
      with ⟨hnone, hval⟩ | ⟨j, w, hj, hw, hmid, hval⟩
    · refine ⟨s, v, by omega, hB, ?_, ?_⟩
      · intro q hq1 hq2
        obtain ⟨u, rfl⟩ : ∃ u, q = s + 1 + u := ⟨q - s - 1, by omega⟩
        rw [hA u]
        exact hnone u (by omega)
      · rw [hA t]; exact hval
    · refine ⟨s + 1 + j, w, by omega, ?_, ?_, ?_⟩
      · rw [hA j]; exact hw
      · intro q hq1 hq2
        obtain ⟨u, rfl⟩ : ∃ u, q = s + 1 + u := ⟨q - s - 1, by omega⟩
        rw [hA u]
        exact hmid u (by omega) (by omega)
      · rw [hA t]; exact hval

/-- Witness for C4 at the concrete column `[None, 5, None, 7]` with
period 3: the seed lands at index 1 with value 5. -/
theorem c4_ema_seed_and_recurrence_witness :
    ([none, some 5, none, some 7] : List (Option ℚ)).getD 1 none = some 5 ∧
    (calculate_ema [none, some 5, none, some 7] 3).getD 1 none = some 5 := by
  have hfirst : ∀ j, j < 1 → ([none, some 5, none, some 7] : List (Option ℚ)).getD j none = none := by
    intro j hj
    have hj0 : j = 0 := by omega
    subst hj0
    rfl
  exact ⟨rfl, (c4_ema_seed_and_recurrence [none, some 5, none, some 7] 3 1 5 hfirst rfl).1⟩

/-! ## Claims C8 and C9 -/

theorem digit_toUpper (c : Char) (h : c.isDigit = true) : c.toUpper = c := by
  simp only [Char.isDigit, Bool.and_eq_true, decide_eq_true_eq] at h
  obtain ⟨h1, h2⟩ := h
  have h2n : c.toNat ≤ 57 := by
    simpa [Char.toNat, UInt32.le_def, Fin.le_def] using h2
  unfold Char.toUpper
  rw [if_neg (by omega)]

theorem digit_not_ws (c : Char) (h : c.isDigit = true) : c.isWhitespace = false := by
  simp only [Char.isDigit, Bool.and_eq_true, decide_eq_true_eq] at h
  obtain ⟨h1, _⟩ := h
  by_contra hw
  rw [Bool.not_eq_false] at hw
  simp only [Char.isWhitespace, Bool.or_eq_true, decide_eq_true_eq] at hw
  rcases hw with ((rfl | rfl) | rfl) | rfl <;> exact absurd h1 (by decide)

theorem map_toUpper_digits (l : List Char) (h : ∀ c ∈ l, c.isDigit = true) :
    l.map Char.toUpper = l := by
  induction l with
  | nil => rfl
  | cons a as ih =>
    rw [List.map_cons, digit_toUpper a (h a (by simp)),
      ih (fun c hc => h c (by simp [hc]))]

theorem dropWhile_eq_self_of_false (p : Char → Bool) (l : List Char)
    (h : ∀ c ∈ l, p c = false) : l.dropWhile p = l := by
  cases l with
  | nil => rfl
  | cons a rest =>
    rw [List.dropWhile_cons, h a (List.mem_cons_self a rest)]
    simp

theorem pyStrip_eq_self (l : List Char) (h : ∀ c ∈ l, c.isWhitespace = false) :
    pyStrip l = l := by
  unfold pyStrip
  rw [dropWhile_eq_self_of_false _ _ h,
    dropWhile_eq_self_of_false _ _ (by intro c hc; exact h c (List.mem_reverse.mp hc)),
    List.reverse_reverse]

theorem format_secid_canon (m : Char) (rest : List Char)
    (hm : m = '0' ∨ m = '1') (hrest : pyIsDigit rest = true) :
    format_secid ⟨m :: '.' :: rest⟩ = Except.ok ⟨m :: '.' :: rest⟩ := by
  have hdig : ∀ c ∈ rest, c.isDigit = true := by
    simp only [pyIsDigit, Bool.and_eq_true, List.all_eq_true, decide_eq_true_eq] at hrest
    exact fun c hc => hrest.2 c hc
  have hnws : ∀ c ∈ (m :: '.' :: rest), c.isWhitespace = false := by
    intro c hc
    rcases hc with _ | ⟨_, hc⟩
    · rcases hm with rfl | rfl <;> decide
    · rcases hc with _ | ⟨_, hc⟩
      · decide
      · exact digit_not_ws c (hdig c hc)
  have hupper : (m :: '.' :: rest).map Char.toUpper = m :: '.' :: rest := by
    rw [List.map_cons, List.map_cons, map_toUpper_digits rest hdig]
    rcases hm with rfl | rfl <;> rfl
  rcases hm with rfl | rfl
  · unfold format_secid
    dsimp only
    rw [pyStrip_eq_self _ hnws, hupper]
    rw [if_pos ⟨rfl, Or.inl rfl, hrest⟩]
    rfl
  · unfold format_secid
    dsimp only
    rw [pyStrip_eq_self _ hnws, hupper]
    rw [if_pos ⟨rfl, Or.inr rfl, hrest⟩]
    rfl

/-- Claim C8 fails on the code as universally stated: normalization is
not idempotent on every input it accepts. `format_secid "ABC.SZ"`
succeeds with `"0.ABC"` (the suffix branch never checks that the code
part is numeric), but normalizing the result `"0.ABC"` raises
`ValueError`. -/
theorem c8_counterexample :
    format_secid "ABC.SZ" = Except.ok "0.ABC" ∧
    format_secid "0.ABC" = Except.error "0.ABC" :=
  ⟨rfl, rfl⟩

/-- Claim C8 as amended: normalization is idempotent on every input whose
normalized form is a canonical secid `0.digits`/`1.digits` (which covers
all-digit codes, digit codes with an `SZ`/`SH` suffix in either case, and
existing secids); and the bare, suffixed and canonical forms of a
mainland code agree: `normalize("600519") = normalize("600519.SH") =
normalize("1.600519") = ok "1.600519"`, with the suffix recognized
case-insensitively. -/
theorem c8_amended_idempotent_on_canonical (x r : String)
    (h1 : format_secid x = Except.ok r) (h2 : isCanonSecid r = true) :
    format_secid r = Except.ok r ∧
    format_secid "600519" = format_secid "600519.SH" ∧
    format_secid "600519.SH" = format_secid "1.600519" ∧
    format_secid "600519" = Except.ok "1.600519" ∧
    format_secid "600519.sh" = Except.ok "1.600519" := by
  refine ⟨?_, rfl, rfl, rfl, rfl⟩
  obtain ⟨cs⟩ := r
  unfold isCanonSecid at h2
  dsimp only at h2
  split at h2
  · rename_i m rest
    simp only [Bool.and_eq_true, Bool.or_eq_true, decide_eq_true_eq] at h2
    exact format_secid_canon m rest h2.1 h2.2
  · cases h2

/-- Witness for the amended C8 at `x = "600519.SH"`, `r = "1.600519"`. -/
theorem c8_amended_idempotent_on_canonical_witness :
    format_secid "600519.SH" = Except.ok "1.600519" ∧
    isCanonSecid "1.600519" = true ∧
    format_secid "1.600519" = Except.ok "1.600519" :=
  ⟨rfl, by decide,
   (c8_amended_idempotent_on_canonical "600519.SH" "1.600519" rfl (by decide)).1⟩

/-- Claim C9 fails on the code for the secid normalizer: a 5-digit code is
not left unqualified by `format_secid`; it is qualified with market `0`
(Shenzhen), `format_secid "01810" = ok "0.01810" ≠ "01810"`. -/
theorem c9_counterexample :
    format_secid "01810" = Except.ok "0.01810" ∧ ("0.01810" : String) ≠ "01810" :=
  ⟨rfl, by decide⟩

/-- Claim C9 as amended: only the real-time-quote prefixer treats a
5-digit all-digit code as Hong Kong and passes it through unqualified;
the secid normalizer instead attaches a market prefix to every all-digit
code (`1.` when it starts with `6`, else `0.`), 5-digit codes included. -/
theorem c9_amended_five_digit_split (s : String)
    (hdig : s.data.all Char.isDigit = true) (hlen : s.data.length = 5) :
    _add_exchange_prefix s = s ∧
    format_secid s
      = Except.ok ⟨(if s.data.headD ' ' = '6' then '1' else '0') :: '.' :: s.data⟩ := by
  obtain ⟨cs⟩ := s
  simp only [List.all_eq_true] at hdig
  have hmem : ∀ c ∈ cs, c.isDigit = true := fun c hc => hdig c hc
  have hne : cs ≠ [] := by intro h; subst h; simp at hlen
  have hSH : ∀ a b : Char, cs.take 2 = [a, b] → a.isDigit = true := by
    intro a b ht
    apply hmem
    have : a ∈ cs.take 2 := by rw [ht]; simp
    exact List.mem_of_mem_take this
  have hpy : pyIsDigit cs = true := by
    simp only [pyIsDigit, Bool.and_eq_true, List.all_eq_true]
    exact ⟨by simpa using hne, fun c hc => hmem c hc⟩
  constructor
  · unfold _add_exchange_prefix
    dsimp only
    rw [if_neg, if_pos hpy, if_pos (by simpa using hlen)]
    rintro (h | h)
    · exact absurd (hSH 'S' 'H' h) (by decide)
    · exact absurd (hSH 'S' 'Z' h) (by decide)
  · unfold format_secid
    dsimp only
    rw [pyStrip_eq_self _ (fun c hc => digit_not_ws c (hmem c hc)),
      map_toUpper_digits cs hmem]
    have hnodot : ¬ (cs.contains '.' = true) := by
      intro hc
      have : ('.' : Char) ∈ cs := by simpa using hc
      exact absurd (hmem '.' this) (by decide)
    rw [if_neg (fun h => hnodot h.1), if_neg (fun h => hnodot h.1), if_pos hpy]

/-- Witness for the amended C9 at the code `"01810"`. -/
theorem c9_amended_five_digit_split_witness :
    (("01810" : String).data.all Char.isDigit = true ∧
      ("01810" : String).data.length = 5) ∧
    _add_exchange_prefix "01810" = "01810" := by
  refine ⟨⟨by decide, by decide⟩, ?_⟩
  exact (c9_amended_five_digit_split "01810" (by decide) (by decide)).1
